import Mathlib

/-!
Verification of the broker API client (Python sources
`broker_client.py` and `broker_ws_client.py`).

The development shallowly embeds the signing pipeline
(SHA-256, base64url, HMAC-SHA256 — the parts of `hashlib`, `base64`
and `hmac` the client calls) and the WebSocket session logic
(subscription registry, subscribe/unsubscribe, message dispatch,
reconnect handling) as executable Lean functions, and proves the
specification claims about them.
-/

namespace Broker

/-- A byte string: a list of naturals, each below 256. -/
abbrev Bytes := List Nat

/-- UTF-8 encoding of a single code point (what Python's
`str.encode('utf-8')` produces per character). -/
def utf8Bytes (c : Nat) : List Nat :=
  if c < 0x80 then [c]
  else if c < 0x800 then
    [0xC0 ||| (c >>> 6), 0x80 ||| (c &&& 0x3F)]
  else if c < 0x10000 then
    [0xE0 ||| (c >>> 12), 0x80 ||| ((c >>> 6) &&& 0x3F), 0x80 ||| (c &&& 0x3F)]
  else
    [0xF0 ||| (c >>> 18), 0x80 ||| ((c >>> 12) &&& 0x3F),
     0x80 ||| ((c >>> 6) &&& 0x3F), 0x80 ||| (c &&& 0x3F)]

/-- Byte list of `s.encode('utf-8')`. -/
def strBytes (s : String) : Bytes :=
  (s.toList.map (fun ch => utf8Bytes ch.toNat)).flatten

/-- The modulus 2^32 for 32-bit word arithmetic in SHA-256. -/
def M32 : Nat := 4294967296

/-- Right rotation of a 32-bit word. -/
def rotr (n x : Nat) : Nat := ((x >>> n) ||| (x <<< (32 - n))) % M32

/-- The 64 SHA-256 round constants (FIPS 180-4 §4.2.2), in decimal. -/
def shaK : List Nat :=
  [1116352408, 1899447441, 3049323471, 3921009573, 961987163, 1508970993,
   2453635748, 2870763221, 3624381080, 310598401, 607225278, 1426881987,
   1925078388, 2162078206, 2614888103, 3248222580, 3835390401, 4022224774,
   264347078, 604807628, 770255983, 1249150122, 1555081692, 1996064986,
   2554220882, 2821834349, 2952996808, 3210313671, 3336571891, 3584528711,
   113926993, 338241895, 666307205, 773529912, 1294757372, 1396182291,
   1695183700, 1986661051, 2177026350, 2456956037, 2730485921, 2820302411,
   3259730800, 3345764771, 3516065817, 3600352804, 4094571909, 275423344,
   430227734, 506948616, 659060556, 883997877, 958139571, 1322822218,
   1537002063, 1747873779, 1955562222, 2024104815, 2227730452, 2361852424,
   2428436474, 2756734187, 3204031479, 3329325298]

/-- The SHA-256 initial hash value (FIPS 180-4 §5.3.3), in decimal. -/
def shaH0 : List Nat :=
  [1779033703, 3144134277, 1013904242, 2773480762,
   1359893119, 2600822924, 528734635, 1541459225]

def bigSigma0 (x : Nat) : Nat := (rotr 2 x) ^^^ (rotr 13 x) ^^^ (rotr 22 x)

def bigSigma1 (x : Nat) : Nat := (rotr 6 x) ^^^ (rotr 11 x) ^^^ (rotr 25 x)

def smallSigma0 (x : Nat) : Nat := (rotr 7 x) ^^^ (rotr 18 x) ^^^ (x >>> 3)

def smallSigma1 (x : Nat) : Nat := (rotr 17 x) ^^^ (rotr 19 x) ^^^ (x >>> 10)

/-- SHA-256 choice function; `¬x` is complement within 32 bits. -/
def chF (x y z : Nat) : Nat := (x &&& y) ^^^ ((x ^^^ 0xffffffff) &&& z)

def majF (x y z : Nat) : Nat := (x &&& y) ^^^ (x &&& z) ^^^ (y &&& z)

/-- Big-endian bytes of `n`, `k` bytes wide. -/
def beBytes (k n : Nat) : List Nat :=
  (List.range k).map (fun i => (n >>> (8 * (k - 1 - i))) &&& 0xFF)

/-- SHA-256 message padding: append `0x80`, zeros to 56 mod 64, then the
bit length as 8 big-endian bytes. -/
def padMsg (msg : Bytes) : Bytes :=
  let z := (119 - msg.length % 64) % 64
  msg ++ [0x80] ++ List.replicate z 0 ++ beBytes 8 (msg.length * 8)

/-- Group bytes into big-endian 32-bit words. -/
def bytesToWords : Bytes → List Nat
  | a :: b :: c :: d :: rest =>
      ((((a <<< 8) ||| b) <<< 8 ||| c) <<< 8 ||| d) :: bytesToWords rest
  | _ => []

/-- Extend the 16-word block to the 64-word message schedule. -/
def extendW (ws : List Nat) : Nat → List Nat
  | 0 => ws
  | fuel + 1 =>
      let i := ws.length
      let wNew := (smallSigma1 (ws.getD (i - 2) 0) + ws.getD (i - 7) 0 +
                   smallSigma0 (ws.getD (i - 15) 0) + ws.getD (i - 16) 0) % M32
      extendW (ws ++ [wNew]) fuel

/-- One SHA-256 compression round on the 8-word working state;
`kw` is the round constant already added to the schedule word. -/
def compressRound (v : List Nat) (kw : Nat) : List Nat :=
  match v with
  | [a, b, c, d, e, f, g, h] =>
      let t1 := (h + bigSigma1 e + chF e f g + kw) % M32
      let t2 := (bigSigma0 a + majF a b c) % M32
      [(t1 + t2) % M32, a, b, c, (d + t1) % M32, e, f, g]
  | l => l

/-- Process one 64-byte chunk, updating the 8-word hash state. -/
def compressChunk (hst : List Nat) (chunk : Bytes) : List Nat :=
  let w := extendW (bytesToWords chunk) 48
  let kws := List.zipWith (fun k wi => (k + wi) % M32) shaK w
  let v := kws.foldl compressRound hst
  List.zipWith (fun x y => (x + y) % M32) hst v

/-- Split into 64-byte chunks (fuel-driven for structural termination). -/
def chunksAux : Nat → Bytes → List Bytes
  | 0, _ => []
  | _, [] => []
  | fuel + 1, l => l.take 64 :: chunksAux fuel (l.drop 64)

def chunks (l : Bytes) : List Bytes := chunksAux l.length l

/-- SHA-256 digest of a byte string (`hashlib.sha256(...).digest()`). -/
def sha256 (msg : Bytes) : Bytes :=
  let hs := (chunks (padMsg msg)).foldl compressChunk shaH0
  (hs.map (fun w => beBytes 4 w)).flatten

/-- Lowercase hexadecimal digit. -/
def hexDigit (n : Nat) : Char :=
  if n < 10 then Char.ofNat (48 + n) else Char.ofNat (87 + n)

/-- Two-character lowercase hex of one byte. -/
def byteHex (b : Nat) : String :=
  String.mk [hexDigit (b / 16), hexDigit (b % 16)]

/-- Lowercase hex of a byte string (`.hexdigest()`). -/
def bytesHex (bs : Bytes) : String := String.join (bs.map byteHex)

/-- RFC 4648 URL-safe base64 alphabet. -/
def b64Char (n : Nat) : Char :=
  if n < 26 then Char.ofNat (65 + n)
  else if n < 52 then Char.ofNat (97 + (n - 26))
  else if n < 62 then Char.ofNat (48 + (n - 52))
  else if n = 62 then '-' else '_'

def b64urlAux : Bytes → List Char
  | a :: b :: c :: rest =>
      let n := (a <<< 16) ||| (b <<< 8) ||| c
      b64Char (n >>> 18) :: b64Char ((n >>> 12) &&& 63) ::
      b64Char ((n >>> 6) &&& 63) :: b64Char (n &&& 63) :: b64urlAux rest
  | [a, b] =>
      let n := (a <<< 16) ||| (b <<< 8)
      [b64Char (n >>> 18), b64Char ((n >>> 12) &&& 63), b64Char ((n >>> 6) &&& 63), '=']
  | [a] =>
      let n := a <<< 16
      [b64Char (n >>> 18), b64Char ((n >>> 12) &&& 63), '=', '=']
  | [] => []

/-- Model of `base64.urlsafe_b64encode` (padding kept). -/
def base64urlEncode (bs : Bytes) : String := String.mk (b64urlAux bs)

/-- HMAC-SHA256 (RFC 2104, block size 64), as `hmac.new(k, m, sha256)`. -/
def hmacSha256 (key msg : Bytes) : Bytes :=
  let k0 := if 64 < key.length then sha256 key else key
  let kPad := k0 ++ List.replicate (64 - k0.length) 0
  let ipad := kPad.map (fun b => b ^^^ 0x36)
  let opad := kPad.map (fun b => b ^^^ 0x5c)
  sha256 (opad ++ sha256 (ipad ++ msg))

/-- Python's `str.upper()` for ASCII strings: uppercase each character. -/
def strUpper (s : String) : String := String.mk (s.toList.map Char.toUpper)

/-- Model of `BrokerClient.hash_body`: SHA-256 hex of the request body
(the falsy-body branch replaces a falsy body with `""`, an identity
on strings). -/
def BrokerClient.hash_body (body : String) : String :=
  bytesHex (sha256 (strBytes body))

/-- Model of `BrokerClient.generate_signature`: canonical string joined with
newlines from uppercased method, path with query, decimal timestamp,
nonce and body hash; key is base64url of SHA-256 of the secret;
result is lowercase-hex HMAC-SHA256. -/
def BrokerClient.generate_signature (secret_key method path_with_query : String)
    (timestamp : Nat) (nonce : String) (body_sha256 : String) : String :=
  let canonical_string := String.intercalate "\n"
    [strUpper method, path_with_query, toString timestamp, nonce, body_sha256]
  let secret_key_hash := sha256 (strBytes secret_key)
  let secret_key_base64 := base64urlEncode secret_key_hash
  bytesHex (hmacSha256 (strBytes secret_key_base64) (strBytes canonical_string))

/-- Model of `BrokerWSClient.generate_signature`: the streaming-handshake signer
with method `"WS"`, path `"/ws/v1/stream"` and the empty-body hash. -/
def BrokerWSClient.generate_signature (secret_key : String)
    (timestamp : Nat) (nonce : String) : String :=
  let method := "WS"
  let path_with_query := "/ws/v1/stream"
  let body_sha256 := bytesHex (sha256 [])
  let canonical_string := String.intercalate "\n"
    [method, path_with_query, toString timestamp, nonce, body_sha256]
  let secret_key_hash := sha256 (strBytes secret_key)
  let secret_key_base64 := base64urlEncode secret_key_hash
  bytesHex (hmacSha256 (strBytes secret_key_base64) (strBytes canonical_string))

/-- The Signer contract worded as the specification states it:
canonical string = uppercased method, path with query, decimal
timestamp, nonce and body hash joined with newlines; derived key =
base64url of SHA-256 of the secret; signature = lowercase-hex
HMAC-SHA256 keyed by the derived key text. -/
def sign_spec (secretKey method pathWithQuery : String) (timestampMillis : Nat)
    (nonce : String) (bodySHA256 : String) : String :=
  let canonical := strUpper method ++ "\n" ++ pathWithQuery ++ "\n" ++
    toString timestampMillis ++ "\n" ++ nonce ++ "\n" ++ bodySHA256
  let derivedKey := base64urlEncode (sha256 (strBytes secretKey))
  bytesHex (hmacSha256 (strBytes derivedKey) (strBytes canonical))

/-! ## The WebSocket session model

`BrokerWSClient` state and operations, embedded from
`broker_ws_client.py`.  Handlers are identified by opaque naturals;
handler behaviour (whether a callback raises) is passed as an explicit
function where dispatch needs it.  Wire sends may fail; a `wireOk`
flag stands for the outcome of `websocket.send`. -/

/-- Control messages the client sends (`{'op': ..., 'ch': ...}`). -/
inductive CtrlMsg where
  | auth : CtrlMsg
  | subscribeMsg (ch : String) : CtrlMsg
  | unsubscribeMsg (ch : String) : CtrlMsg
deriving DecidableEq, Repr

/-- The mutable fields of `BrokerWSClient`.  The subscription registry
is an insertion-ordered association list, mirroring a Python dict from
channel name to the list of registered handlers. -/
structure WSState where
  authenticated : Bool
  subscriptions : List (String × List Nat)
  reconnect_attempts : Nat
  max_reconnect_attempts : Nat
  reconnect_delay : ℚ
  running : Bool
  websocket : Bool
deriving DecidableEq, Repr

/-- Dict lookup: value of the first (unique) binding of `ch`. -/
def regGet : List (String × List Nat) → String → Option (List Nat)
  | [], _ => none
  | (k, v) :: rest, ch => if k = ch then some v else regGet rest ch

/-- Dict store: replace the binding of `ch` in place, or append a new
binding at the end (Python dicts keep insertion order). -/
def regSet : List (String × List Nat) → String → List Nat → List (String × List Nat)
  | [], ch, v => [(ch, v)]
  | (k, w) :: rest, ch, v =>
      if k = ch then (ch, v) :: rest else (k, w) :: regSet rest ch v

/-- Dict delete: drop the binding of `ch` if present. -/
def regDel : List (String × List Nat) → String → List (String × List Nat)
  | [], _ => []
  | (k, w) :: rest, ch => if k = ch then rest else (k, w) :: regDel rest ch

/-- The registry mutation performed by `subscribe`: create the entry if
absent, then append the handler. -/
def subsAppend (subs : List (String × List Nat)) (ch : String) (h : Nat) :
    List (String × List Nat) :=
  let subs1 := match regGet subs ch with
    | none => regSet subs ch []
    | some _ => subs
  regSet subs1 ch ((regGet subs1 ch).getD [] ++ [h])

/-- Model of `BrokerWSClient.subscribe`: raises when not authenticated; otherwise
stores the handler, then sends the subscribe control message
(`_send_message` raises when there is no websocket, and the wire send
itself may fail). -/
def BrokerWSClient.subscribe (st : WSState) (ch : String) (h : Nat) (wireOk : Bool) :
    WSState × Except String CtrlMsg :=
  if st.authenticated = false then (st, .error "Not authenticated")
  else
    let st1 := { st with subscriptions := subsAppend st.subscriptions ch h }
    if st1.websocket = false then (st1, .error "WebSocket not connected")
    else if wireOk then (st1, .ok (.subscribeMsg ch))
    else (st1, .error "send failed")

/-- Model of `BrokerWSClient.unsubscribe`: raises when not authenticated;
otherwise removes the channel entry entirely, then sends the
unsubscribe control message. -/
def BrokerWSClient.unsubscribe (st : WSState) (ch : String) (wireOk : Bool) :
    WSState × Except String CtrlMsg :=
  if st.authenticated = false then (st, .error "Not authenticated")
  else
    let st1 := { st with subscriptions := regDel st.subscriptions ch }
    if st1.websocket = false then (st1, .error "WebSocket not connected")
    else if wireOk then (st1, .ok (.unsubscribeMsg ch))
    else (st1, .error "send failed")

/-- Model of `BrokerWSClient.close`: stop the loop, clear the authenticated flag
and the registry, release the websocket. -/
def BrokerWSClient.close (st : WSState) : WSState :=
  { st with running := false, authenticated := false,
            subscriptions := [], websocket := false }

/-- The effect of a successful `connect()` (socket opened, handler task
started, auth acknowledged): websocket live, running, authenticated,
attempt counter reset to 0. -/
def BrokerWSClient.connect_success (st : WSState) : WSState :=
  { st with websocket := true, running := true, authenticated := true,
            reconnect_attempts := 0 }

/-- An inbound JSON message, reduced to the fields
`_handle_message` inspects. -/
structure Msg where
  error : Option String
  op : Option String
  ch : Option String
deriving DecidableEq, Repr

/-- Python's `'error' in data and data['error']`: the field is present
and truthy. -/
def msgErrTruthy (m : Msg) : Bool :=
  match m.error with
  | none => false
  | some s => s != ""

/-- Model of `BrokerWSClient._handle_message`.  `beh h m` is the outcome of
calling handler `h` on message `m` (`.error` when the callback raises;
the surrounding `try/except` logs and continues).  Returns the updated
state and the sequence of handler invocations with their outcomes. -/
def BrokerWSClient.handle_message (beh : Nat → Msg → Except String Unit)
    (st : WSState) (m : Msg) : WSState × List (Nat × Except String Unit) :=
  if msgErrTruthy m then (st, [])
  else match m.op with
    | some op =>
        if op = "auth" then
          (if msgErrTruthy m then st else { st with authenticated := true }, [])
        else (st, [])
    | none =>
        match m.ch with
        | some channel =>
            match regGet st.subscriptions channel with
            | some handlers => (st, handlers.map (fun h => (h, beh h m)))
            | none => (st, [])
        | none => (st, [])

/-- The read loop of `BrokerWSClient._message_handler` over a finite
stream of frames; `none` stands for a frame that fails JSON parsing
(logged and skipped).  Accumulates every handler invocation. -/
def BrokerWSClient.message_loop (beh : Nat → Msg → Except String Unit) :
    WSState → List (Option Msg) → WSState × List (Nat × Except String Unit)
  | st, [] => (st, [])
  | st, none :: rest => BrokerWSClient.message_loop beh st rest
  | st, some m :: rest =>
      let p := BrokerWSClient.handle_message beh st m
      let q := BrokerWSClient.message_loop beh p.1 rest
      (q.1, p.2 ++ q.2)

/-- What `_handle_reconnect` does before connecting, as the caller
observes it: either it returns silently (counter exhausted, only a log
line), or it bumps the counter and sleeps `delay` before attempt
`attemptNumber`.  The `raised` constructor is the observation a
surfaced terminal failure would produce; the code never produces it. -/
inductive ReconnectDecision where
  | silentStop : ReconnectDecision
  | attempt (delay : ℚ) (attemptNumber : Nat) : ReconnectDecision
  | raised (msg : String) : ReconnectDecision
deriving DecidableEq, Repr

/-- The guard-and-backoff step of `BrokerWSClient._handle_reconnect`:
return silently once `reconnect_attempts >= max_reconnect_attempts`,
otherwise increment the counter first and compute
`reconnect_delay * 2 ** (reconnect_attempts - 1)`. -/
def BrokerWSClient.handle_reconnect_step (st : WSState) : WSState × ReconnectDecision :=
  if st.max_reconnect_attempts ≤ st.reconnect_attempts then (st, .silentStop)
  else
    let n := st.reconnect_attempts + 1
    ({ st with reconnect_attempts := n },
     .attempt (st.reconnect_delay * 2 ^ (n - 1)) n)

/-- The inner loop of the resubscription phase of `_handle_reconnect`:
`for handler in handlers: await self.subscribe(channel, handler)`.
An exception from `subscribe` propagates. -/
def resubHandlers (st : WSState) (ch : String) :
    List Nat → Except String (WSState × List CtrlMsg)
  | [] => .ok (st, [])
  | h :: rest =>
      match BrokerWSClient.subscribe st ch h true with
      | (st1, .ok m) =>
          match resubHandlers st1 ch rest with
          | .ok (st2, ms) => .ok (st2, m :: ms)
          | .error e => .error e
      | (_, .error e) => .error e

/-- The outer loop of the resubscription phase: for each snapshotted
channel, copy its handlers, clear the entry, then re-subscribe each
handler in turn. -/
def resubChannels (st : WSState) :
    List String → Except String (WSState × List CtrlMsg)
  | [] => .ok (st, [])
  | ch :: rest =>
      let handlers := (regGet st.subscriptions ch).getD []
      let st1 := { st with subscriptions := regSet st.subscriptions ch [] }
      match resubHandlers st1 ch handlers with
      | .ok (st2, ms) =>
          match resubChannels st2 rest with
          | .ok (st3, ms2) => .ok (st3, ms ++ ms2)
          | .error e => .error e
      | .error e => .error e

/-- The resubscription phase of `BrokerWSClient._handle_reconnect`,
run after a successful `connect()`:
`channels_to_resubscribe = list(self.subscriptions.keys())` then the
two nested loops.  Returns the final state and every subscribe
control message emitted, in emission order. -/
def BrokerWSClient.handle_reconnect_resubscribe (st : WSState) :
    Except String (WSState × List CtrlMsg) :=
  resubChannels st (st.subscriptions.map Prod.fst)

/-- The registry invariant: a channel with no handlers is absent,
never present with an empty sequence. -/
def registryInv (subs : List (String × List Nat)) : Prop :=
  ∀ p ∈ subs, p.2 ≠ []

/-! ### Concrete states and messages used to instantiate the theorems -/

/-- A ready state with one channel holding two handlers. -/
def stTwoHandlers : WSState :=
  { authenticated := true, subscriptions := [("orders", [1, 2])],
    reconnect_attempts := 0, max_reconnect_attempts := 5,
    reconnect_delay := 1, running := true, websocket := true }

/-- A ready state with two channels of one handler each. -/
def stTwoChannels : WSState :=
  { authenticated := true, subscriptions := [("orders", [1]), ("trades", [2])],
    reconnect_attempts := 0, max_reconnect_attempts := 5,
    reconnect_delay := 1, running := true, websocket := true }

/-- A state whose session is not authenticated (mid-reconnect). -/
def stNotAuth : WSState :=
  { authenticated := false, subscriptions := [("orders", [7])],
    reconnect_attempts := 1, max_reconnect_attempts := 5,
    reconnect_delay := 1, running := true, websocket := true }

/-- A state whose reconnect counter is exhausted. -/
def stExhausted : WSState :=
  { authenticated := false, subscriptions := [("orders", [7])],
    reconnect_attempts := 5, max_reconnect_attempts := 5,
    reconnect_delay := 1, running := true, websocket := false }

/-- A disconnected state two reconnect attempts in. -/
def stRecon : WSState :=
  { authenticated := false, subscriptions := [("orders", [7])],
    reconnect_attempts := 2, max_reconnect_attempts := 5,
    reconnect_delay := 1, running := true, websocket := false }

/-- Handler behaviour where handler 1 raises and every other handler
returns normally. -/
def behRaises1 : Nat → Msg → Except String Unit :=
  fun h _ => if h = 1 then .error "boom" else .ok ()

/-- A data message for channel "orders". -/
def msgOrders : Msg := { error := none, op := none, ch := some "orders" }

/-- A data message for channel "trades". -/
def msgTrades : Msg := { error := none, op := none, ch := some "trades" }

/-! ## Registry lemmas -/

lemma regGet_regSet_self (subs : List (String × List Nat)) (ch : String) (v : List Nat) :
    regGet (regSet subs ch v) ch = some v := by
  induction subs with
  | nil => simp [regSet, regGet]
  | cons p rest ih =>
      obtain ⟨k, w⟩ := p
      by_cases h : k = ch
      · simp [regSet, regGet, h]
      · simp [regSet, regGet, h, ih]

lemma regSet_regSet (subs : List (String × List Nat)) (ch : String) (v w : List Nat) :
    regSet (regSet subs ch v) ch w = regSet subs ch w := by
  induction subs with
  | nil => simp [regSet]
  | cons p rest ih =>
      obtain ⟨k, u⟩ := p
      by_cases h : k = ch
      · simp [regSet, h]
      · simp [regSet, h, ih]

lemma regSet_of_regGet (subs : List (String × List Nat)) (ch : String) (v : List Nat)
    (h : regGet subs ch = some v) : regSet subs ch v = subs := by
  induction subs with
  | nil => simp [regGet] at h
  | cons p rest ih =>
      obtain ⟨k, u⟩ := p
      by_cases hk : k = ch
      · simp [regGet, hk] at h
        simp [regSet, hk, h]
      · simp [regGet, hk] at h
        simp [regSet, hk, ih h]

lemma regGet_append_left (l1 l2 : List (String × List Nat)) (ch : String)
    (h : ch ∉ l1.map Prod.fst) : regGet (l1 ++ l2) ch = regGet l2 ch := by
  induction l1 with
  | nil => simp
  | cons p rest ih =>
      obtain ⟨k, u⟩ := p
      simp only [List.map_cons, List.mem_cons] at h
      push_neg at h
      simp [regGet, Ne.symm h.1, ih h.2]

lemma regSet_append_left (l1 l2 : List (String × List Nat)) (ch : String) (v : List Nat)
    (h : ch ∉ l1.map Prod.fst) : regSet (l1 ++ l2) ch v = l1 ++ regSet l2 ch v := by
  induction l1 with
  | nil => simp
  | cons p rest ih =>
      obtain ⟨k, u⟩ := p
      simp only [List.map_cons, List.mem_cons] at h
      push_neg at h
      simp [regSet, Ne.symm h.1, ih h.2]

lemma regSet_inv (subs : List (String × List Nat)) (ch : String) (v : List Nat)
    (hInv : registryInv subs) (hv : v ≠ []) : registryInv (regSet subs ch v) := by
  induction subs with
  | nil =>
      intro p hp
      simp [regSet] at hp
      simp [hp, hv]
  | cons q rest ih =>
      obtain ⟨k, u⟩ := q
      by_cases hk : k = ch
      · intro p hp
        simp [regSet, hk] at hp
        rcases hp with hp | hp
        · simp [hp, hv]
        · exact hInv p (List.mem_cons_of_mem _ hp)
      · intro p hp
        simp only [regSet, if_neg hk, List.mem_cons] at hp
        rcases hp with hp | hp
        · exact hInv p (by simp [hp])
        · exact ih (fun q hq => hInv q (List.mem_cons_of_mem _ hq)) p hp

lemma regDel_inv (subs : List (String × List Nat)) (ch : String)
    (hInv : registryInv subs) : registryInv (regDel subs ch) := by
  induction subs with
  | nil => intro p hp; simp [regDel] at hp
  | cons q rest ih =>
      obtain ⟨k, u⟩ := q
      by_cases hk : k = ch
      · intro p hp
        simp only [regDel, if_pos hk] at hp
        exact hInv p (List.mem_cons_of_mem _ hp)
      · intro p hp
        simp only [regDel, if_neg hk, List.mem_cons] at hp
        rcases hp with hp | hp
        · exact hInv p (by simp [hp])
        · exact ih (fun q hq => hInv q (List.mem_cons_of_mem _ hq)) p hp

lemma subsAppend_inv (subs : List (String × List Nat)) (ch : String) (h : Nat)
    (hInv : registryInv subs) : registryInv (subsAppend subs ch h) := by
  unfold subsAppend
  cases hG : regGet subs ch with
  | none =>
      simp only [hG, regGet_regSet_self, Option.getD_some, List.nil_append]
      rw [regSet_regSet]
      exact regSet_inv _ _ _ hInv (by simp)
  | some hs =>
      simp only [hG, Option.getD_some]
      exact regSet_inv _ _ _ hInv (by simp)

/-! ## Resubscription lemmas -/

lemma subscribe_ok (st : WSState) (ch : String) (h : Nat) (hs : List Nat)
    (hA : st.authenticated = true) (hW : st.websocket = true)
    (hG : regGet st.subscriptions ch = some hs) :
    BrokerWSClient.subscribe st ch h true =
      ({ st with subscriptions := regSet st.subscriptions ch (hs ++ [h]) },
       .ok (.subscribeMsg ch)) := by
  simp [BrokerWSClient.subscribe, hA, hW, subsAppend, hG]

lemma resubHandlers_ok (handlers : List Nat) :
    ∀ (st : WSState) (ch : String) (hs : List Nat),
      st.authenticated = true → st.websocket = true →
      regGet st.subscriptions ch = some hs →
      resubHandlers st ch handlers =
        .ok ({ st with subscriptions := regSet st.subscriptions ch (hs ++ handlers) },
             handlers.map (fun _ => CtrlMsg.subscribeMsg ch)) := by
  induction handlers with
  | nil =>
      intro st ch hs hA hW hG
      simp [resubHandlers, regSet_of_regGet _ _ _ hG]
  | cons h rest ih =>
      intro st ch hs hA hW hG
      rw [resubHandlers, subscribe_ok st ch h hs hA hW hG]
      dsimp only
      rw [ih { st with subscriptions := regSet st.subscriptions ch (hs ++ [h]) } ch
            (hs ++ [h]) hA hW (regGet_regSet_self _ _ _)]
      dsimp only
      simp [regSet_regSet, List.append_assoc]

lemma resubChannels_ok (post : List (String × List Nat)) :
    ∀ (pre : List (String × List Nat)) (st : WSState),
      st.subscriptions = pre ++ post →
      st.authenticated = true → st.websocket = true →
      ((pre ++ post).map Prod.fst).Nodup →
      resubChannels st (post.map Prod.fst) =
        .ok (st, (post.map (fun p => p.2.map (fun _ => CtrlMsg.subscribeMsg p.1))).flatten) := by
  induction post with
  | nil =>
      intro pre st hSubs hA hW hN
      simp [resubChannels]
  | cons p rest ih =>
      obtain ⟨ch, hs⟩ := p
      intro pre st hSubs hA hW hN
      have hN' : (pre.map Prod.fst ++ ch :: rest.map Prod.fst).Nodup := by
        simpa using hN
      obtain ⟨hN1, hN2, hDisj⟩ := List.nodup_append.mp hN'
      have hch_pre : ch ∉ pre.map Prod.fst := fun hmem => hDisj hmem (by simp)
      have hG : regGet st.subscriptions ch = some hs := by
        rw [hSubs, regGet_append_left _ _ _ hch_pre]
        simp [regGet]
      have hSet : regSet st.subscriptions ch [] = pre ++ (ch, []) :: rest := by
        rw [hSubs, regSet_append_left _ _ _ _ hch_pre]
        simp [regSet]
      have hG1 : regGet (pre ++ (ch, []) :: rest) ch = some [] := by
        rw [regGet_append_left _ _ _ hch_pre]
        simp [regGet]
      have hSet1 : regSet (pre ++ (ch, []) :: rest) ch ([] ++ hs) = st.subscriptions := by
        rw [regSet_append_left _ _ _ _ hch_pre, hSubs]
        simp [regSet]
      rw [List.map_cons, resubChannels, hG]
      simp only [Option.getD_some, hSet]
      rw [resubHandlers_ok hs { st with subscriptions := pre ++ (ch, []) :: rest } ch []
            hA hW hG1]
      simp only [hSet1]
      rw [ih (pre ++ [(ch, hs)]) st (by simpa using hSubs) hA hW (by simpa using hN)]
      simp

/-- A completed resubscription pass restores the registry exactly and
emits one subscribe message per registered handler, grouped by channel
in snapshot order. -/
lemma resubscribe_ok (st : WSState) (hA : st.authenticated = true)
    (hW : st.websocket = true) (hN : (st.subscriptions.map Prod.fst).Nodup) :
    BrokerWSClient.handle_reconnect_resubscribe st =
      .ok (st, (st.subscriptions.map
        (fun p => p.2.map (fun _ => CtrlMsg.subscribeMsg p.1))).flatten) :=
  resubChannels_ok st.subscriptions [] st (by simp) hA hW (by simpa using hN)

/-! ## Operation-shape lemmas -/

lemma subscribe_fst (st : WSState) (ch : String) (hdl : Nat) (wireOk : Bool)
    (hA : st.authenticated = true) :
    (BrokerWSClient.subscribe st ch hdl wireOk).1 =
      { st with subscriptions := subsAppend st.subscriptions ch hdl } := by
  cases hw : st.websocket <;> cases wk : wireOk <;>
    simp [BrokerWSClient.subscribe, hA, hw, wk]

lemma unsubscribe_fst (st : WSState) (ch : String) (wireOk : Bool)
    (hA : st.authenticated = true) :
    (BrokerWSClient.unsubscribe st ch wireOk).1 =
      { st with subscriptions := regDel st.subscriptions ch } := by
  cases hw : st.websocket <;> cases wk : wireOk <;>
    simp [BrokerWSClient.unsubscribe, hA, hw, wk]

lemma subscribe_failed_send (st : WSState) (ch : String) (hdl : Nat)
    (hA : st.authenticated = true) :
    ∃ e, (BrokerWSClient.subscribe st ch hdl false).2 = .error e := by
  cases hw : st.websocket <;>
    simp [BrokerWSClient.subscribe, hA, hw]

lemma unsubscribe_failed_send (st : WSState) (ch : String)
    (hA : st.authenticated = true) :
    ∃ e, (BrokerWSClient.unsubscribe st ch false).2 = .error e := by
  cases hw : st.websocket <;>
    simp [BrokerWSClient.unsubscribe, hA, hw]

/-! ## Signature lemmas -/

lemma strUpper_WS : strUpper "WS" = "WS" := by decide

set_option maxRecDepth 10000 in
lemma hash_body_empty : BrokerClient.hash_body "" = bytesHex (sha256 []) := by
  decide

/-! ## The claims -/

set_option maxRecDepth 100000

/-- Claim C1, counterexample.  With the single channel "orders" holding
two handlers, a successful reconnect pass emits two subscribe control
messages for that one channel, refuting "exactly one subscribe control
message per previously-registered channel (no duplicates)". -/
theorem C1_counterexample :
    BrokerWSClient.handle_reconnect_resubscribe
        (BrokerWSClient.connect_success stTwoHandlers) =
      .ok (BrokerWSClient.connect_success stTwoHandlers,
           [CtrlMsg.subscribeMsg "orders", CtrlMsg.subscribeMsg "orders"]) ∧
    [CtrlMsg.subscribeMsg "orders", CtrlMsg.subscribeMsg "orders"] ≠
      [CtrlMsg.subscribeMsg "orders"] :=
  ⟨rfl, by decide⟩

/-- Claim C1, amended: after a successful re-authentication the client
emits exactly one subscribe control message per registered handler
(so a channel with several handlers is subscribed once per handler),
channels grouped in the order of the registry snapshot, and the
registry is restored to exactly its prior contents. -/
theorem C1_amended_resubscribe (st : WSState)
    (hN : (st.subscriptions.map Prod.fst).Nodup) :
    BrokerWSClient.handle_reconnect_resubscribe (BrokerWSClient.connect_success st) =
      .ok (BrokerWSClient.connect_success st,
        ((BrokerWSClient.connect_success st).subscriptions.map
          (fun p => p.2.map (fun _ => CtrlMsg.subscribeMsg p.1))).flatten) :=
  resubscribe_ok _ rfl rfl hN

/-- Witness for C1 (amended) at a two-channel registry. -/
theorem C1_amended_witness :
    (stTwoChannels.subscriptions.map Prod.fst).Nodup ∧
    BrokerWSClient.handle_reconnect_resubscribe
        (BrokerWSClient.connect_success stTwoChannels) =
      .ok (BrokerWSClient.connect_success stTwoChannels,
        ((BrokerWSClient.connect_success stTwoChannels).subscriptions.map
          (fun p => p.2.map (fun _ => CtrlMsg.subscribeMsg p.1))).flatten) :=
  ⟨by decide, C1_amended_resubscribe stTwoChannels (by decide)⟩

/-- Claim C2: `generate_signature` computes the lowercase-hex
HMAC-SHA256, keyed by the base64url encoding of SHA-256(secret), of
the newline-joined canonical string of uppercased method, path with
query, decimal timestamp, nonce and body hash; on secret "secret",
method "WS", path "/ws/v1/stream", timestamp 1700000000000, nonce
"123_456" and the empty-body hash it yields the fixed golden hex
signature. -/
theorem C2_signature_golden :
    (∀ (secret method path : String) (ts : Nat) (nonce bodySha : String),
        BrokerClient.generate_signature secret method path ts nonce bodySha =
          sign_spec secret method path ts nonce bodySha) ∧
    BrokerClient.generate_signature "secret" "WS" "/ws/v1/stream"
        1700000000000 "123_456" (BrokerClient.hash_body "") =
      "c78b5a6f4335db6cc6cd473d2a15956ede2a4cd32ac6175aa1031dd408e69dc4" :=
  ⟨fun _ _ _ _ _ _ => rfl, by decide⟩

/-- Claim C3, counterexample.  In an unauthenticated state, `subscribe`
raises "Not authenticated" and the handler is not stored, and
`unsubscribe` raises and the channel entry survives — refuting "the
registry mutation is applied immediately while not Ready". -/
theorem C3_counterexample :
    BrokerWSClient.subscribe stNotAuth "trades" 9 true =
      (stNotAuth, .error "Not authenticated") ∧
    regGet (BrokerWSClient.subscribe stNotAuth "trades" 9 true).1.subscriptions
      "trades" = none ∧
    BrokerWSClient.unsubscribe stNotAuth "orders" true =
      (stNotAuth, .error "Not authenticated") ∧
    regGet (BrokerWSClient.unsubscribe stNotAuth "orders" true).1.subscriptions
      "orders" = some [7] :=
  ⟨rfl, rfl, rfl, rfl⟩

/-- Claim C3, amended: a subscribe or unsubscribe call issued while the
session is not authenticated fails with "Not authenticated" and leaves
the Subscription Registry unchanged; both the registry mutation and
the control-message send happen only when authenticated. -/
theorem C3_amended_requires_auth (st : WSState) (ch : String) (hdl : Nat)
    (wireOk : Bool) (h : st.authenticated = false) :
    BrokerWSClient.subscribe st ch hdl wireOk = (st, .error "Not authenticated") ∧
    BrokerWSClient.unsubscribe st ch wireOk = (st, .error "Not authenticated") := by
  simp [BrokerWSClient.subscribe, BrokerWSClient.unsubscribe, h]

/-- Witness for C3 (amended) at a concrete unauthenticated state. -/
theorem C3_amended_witness :
    stNotAuth.authenticated = false ∧
    (BrokerWSClient.subscribe stNotAuth "trades" 9 true =
        (stNotAuth, .error "Not authenticated") ∧
     BrokerWSClient.unsubscribe stNotAuth "trades" true =
        (stNotAuth, .error "Not authenticated")) :=
  ⟨rfl, C3_amended_requires_auth stNotAuth "trades" 9 true rfl⟩

/-- Claim C4, counterexample.  With the counter at the maximum, the
reconnect handler returns silently — no connection attempt, but also
no terminal MaxReconnectExceeded failure surfaced to the caller. -/
theorem C4_counterexample :
    BrokerWSClient.handle_reconnect_step stExhausted = (stExhausted, .silentStop) ∧
    ReconnectDecision.silentStop ≠ ReconnectDecision.raised "MaxReconnectExceeded" :=
  ⟨rfl, by decide⟩

/-- Claim C4, amended: once the counter has reached
`max_reconnect_attempts` the session makes no further connection
attempt, but the failure is only logged — the handler returns silently
and no terminal error reaches the caller. -/
theorem C4_amended_silent_stop (st : WSState)
    (h : st.max_reconnect_attempts ≤ st.reconnect_attempts) :
    BrokerWSClient.handle_reconnect_step st = (st, .silentStop) := by
  simp [BrokerWSClient.handle_reconnect_step, h]

/-- Witness for C4 (amended) at an exhausted counter. -/
theorem C4_amended_witness :
    stExhausted.max_reconnect_attempts ≤ stExhausted.reconnect_attempts ∧
    BrokerWSClient.handle_reconnect_step stExhausted = (stExhausted, .silentStop) :=
  ⟨by decide, C4_amended_silent_stop stExhausted (by decide)⟩

/-- Claim C5: the streaming-handshake signature equals the general
signature at method "WS", path "/ws/v1/stream", the same timestamp and
nonce, and the SHA-256 hex of the empty body. -/
theorem C5_ws_refines_general (secret : String) (ts : Nat) (nonce : String) :
    BrokerWSClient.generate_signature secret ts nonce =
      BrokerClient.generate_signature secret "WS" "/ws/v1/stream" ts nonce
        (BrokerClient.hash_body "") := by
  simp only [BrokerWSClient.generate_signature, BrokerClient.generate_signature,
    strUpper_WS, hash_body_empty]

/-- Claim C6: if a handler raises during dispatch of a data message,
every handler registered for the channel is still invoked with that
message (the failing one included, each with its own outcome), and the
read loop goes on to deliver subsequent messages unchanged. -/
theorem C6_handler_isolation (beh : Nat → Msg → Except String Unit) (st : WSState)
    (m : Msg) (channel : String) (handlers : List Nat) (i : Nat) (e : String)
    (rest : List (Option Msg))
    (hErr : msgErrTruthy m = false) (hOp : m.op = none) (hCh : m.ch = some channel)
    (hReg : regGet st.subscriptions channel = some handlers)
    (hi : i < handlers.length)
    (hRaise : beh (handlers.get ⟨i, hi⟩) m = .error e) :
    (BrokerWSClient.handle_message beh st m).2 =
      handlers.map (fun h => (h, beh h m)) ∧
    BrokerWSClient.message_loop beh st (some m :: rest) =
      ((BrokerWSClient.message_loop beh st rest).1,
       handlers.map (fun h => (h, beh h m)) ++
         (BrokerWSClient.message_loop beh st rest).2) := by
  have h1 : BrokerWSClient.handle_message beh st m =
      (st, handlers.map (fun h => (h, beh h m))) := by
    simp [BrokerWSClient.handle_message, hErr, hOp, hCh, hReg]
  exact ⟨by rw [h1], by simp [BrokerWSClient.message_loop, h1]⟩

/-- Witness for C6: handler 1 of channel "orders" raises, handler 2 is
still invoked, and a second data message is still delivered. -/
theorem C6_handler_isolation_witness :
    (BrokerWSClient.handle_message behRaises1 stTwoHandlers msgOrders).2 =
      [1, 2].map (fun h => (h, behRaises1 h msgOrders)) ∧
    BrokerWSClient.message_loop behRaises1 stTwoHandlers
        (some msgOrders :: [some msgOrders]) =
      ((BrokerWSClient.message_loop behRaises1 stTwoHandlers [some msgOrders]).1,
       [1, 2].map (fun h => (h, behRaises1 h msgOrders)) ++
         (BrokerWSClient.message_loop behRaises1 stTwoHandlers [some msgOrders]).2) :=
  C6_handler_isolation behRaises1 stTwoHandlers msgOrders "orders" [1, 2] 0 "boom"
    [some msgOrders] rfl rfl rfl rfl (by decide) rfl

/-- Claim C7: a data message for channel `ch` invokes exactly the
handlers currently registered for `ch`, each once, in registration
order (and none when the channel is absent from the registry); the
state is unchanged. -/
theorem C7_dispatch_exact (beh : Nat → Msg → Except String Unit) (st : WSState)
    (m : Msg) (channel : String)
    (hErr : msgErrTruthy m = false) (hOp : m.op = none) (hCh : m.ch = some channel) :
    ((BrokerWSClient.handle_message beh st m).2.map Prod.fst =
      (regGet st.subscriptions channel).getD []) ∧
    (BrokerWSClient.handle_message beh st m).1 = st ∧
    (regGet st.subscriptions channel = none →
      (BrokerWSClient.handle_message beh st m).2 = []) := by
  cases hG : regGet st.subscriptions channel <;>
    simp [BrokerWSClient.handle_message, hErr, hOp, hCh, hG, Function.comp_def]

/-- Witness for C7 at the two-handler state and channel "orders". -/
theorem C7_dispatch_exact_witness :
    ((BrokerWSClient.handle_message behRaises1 stTwoHandlers msgOrders).2.map
        Prod.fst = (regGet stTwoHandlers.subscriptions "orders").getD []) ∧
    (BrokerWSClient.handle_message behRaises1 stTwoHandlers msgOrders).1 =
      stTwoHandlers ∧
    (regGet stTwoHandlers.subscriptions "orders" = none →
      (BrokerWSClient.handle_message behRaises1 stTwoHandlers msgOrders).2 = []) :=
  C7_dispatch_exact behRaises1 stTwoHandlers msgOrders "orders" rfl rfl rfl

/-- Claim C8: for reconnect attempt `n` (with `1 ≤ n ≤ max`), the
counter is incremented to `n` before the delay is computed, the delay
is `reconnect_delay * 2 ^ (n - 1)`, and once the counter has reached
the maximum no further attempt is ever made. -/
theorem C8_backoff (st : WSState) (n : Nat)
    (h1 : n = st.reconnect_attempts + 1) (h2 : n ≤ st.max_reconnect_attempts) :
    BrokerWSClient.handle_reconnect_step st =
      ({ st with reconnect_attempts := n },
       .attempt (st.reconnect_delay * 2 ^ (n - 1)) n) ∧
    (BrokerWSClient.handle_reconnect_step st).1.reconnect_attempts = n ∧
    ∀ st2 : WSState, st2.max_reconnect_attempts ≤ st2.reconnect_attempts →
      BrokerWSClient.handle_reconnect_step st2 = (st2, .silentStop) := by
  subst h1
  have hlt : ¬ st.max_reconnect_attempts ≤ st.reconnect_attempts := by omega
  refine ⟨?_, ?_, ?_⟩
  · simp [BrokerWSClient.handle_reconnect_step, hlt]
  · simp [BrokerWSClient.handle_reconnect_step, hlt]
  · intro st2 h
    simp [BrokerWSClient.handle_reconnect_step, h]

/-- Witness for C8 at attempt number 3 of 5. -/
theorem C8_backoff_witness :
    (3 = stRecon.reconnect_attempts + 1 ∧ 3 ≤ stRecon.max_reconnect_attempts) ∧
    (BrokerWSClient.handle_reconnect_step stRecon =
      ({ stRecon with reconnect_attempts := 3 },
       .attempt (stRecon.reconnect_delay * 2 ^ (3 - 1)) 3) ∧
    (BrokerWSClient.handle_reconnect_step stRecon).1.reconnect_attempts = 3 ∧
    ∀ st2 : WSState, st2.max_reconnect_attempts ≤ st2.reconnect_attempts →
      BrokerWSClient.handle_reconnect_step st2 = (st2, .silentStop)) :=
  ⟨⟨rfl, by decide⟩, C8_backoff stRecon 3 rfl (by decide)⟩

/-- Claim C9: every client operation — subscribe (any send outcome),
unsubscribe, explicit close, and a completed reconnect resubscription —
preserves the invariant that a registered channel maps to a non-empty
handler sequence. -/
theorem C9_registry_invariant (st : WSState) (ch : String) (hdl : Nat)
    (wireOk : Bool) (hInv : registryInv st.subscriptions)
    (hN : (st.subscriptions.map Prod.fst).Nodup) :
    registryInv (BrokerWSClient.subscribe st ch hdl wireOk).1.subscriptions ∧
    registryInv (BrokerWSClient.unsubscribe st ch wireOk).1.subscriptions ∧
    registryInv (BrokerWSClient.close st).subscriptions ∧
    ∃ stR msgs,
      BrokerWSClient.handle_reconnect_resubscribe
          (BrokerWSClient.connect_success st) = .ok (stR, msgs) ∧
      registryInv stR.subscriptions := by
  refine ⟨?_, ?_, ?_, ?_⟩
  · by_cases hA : st.authenticated = true
    · rw [subscribe_fst st ch hdl wireOk hA]
      exact subsAppend_inv _ _ _ hInv
    · have hA' : st.authenticated = false := by
        revert hA; cases st.authenticated <;> simp
      simp [BrokerWSClient.subscribe, hA', hInv]
  · by_cases hA : st.authenticated = true
    · rw [unsubscribe_fst st ch wireOk hA]
      exact regDel_inv _ _ hInv
    · have hA' : st.authenticated = false := by
        revert hA; cases st.authenticated <;> simp
      simp [BrokerWSClient.unsubscribe, hA', hInv]
  · intro p hp
    simp [BrokerWSClient.close] at hp
  · exact ⟨BrokerWSClient.connect_success st, _,
      resubscribe_ok _ rfl rfl hN, hInv⟩

/-- Witness for C9 at a concrete two-channel state. -/
theorem C9_registry_invariant_witness :
    registryInv
      (BrokerWSClient.subscribe stTwoChannels "orders" 9 true).1.subscriptions ∧
    registryInv
      (BrokerWSClient.unsubscribe stTwoChannels "orders" true).1.subscriptions ∧
    registryInv (BrokerWSClient.close stTwoChannels).subscriptions ∧
    ∃ stR msgs,
      BrokerWSClient.handle_reconnect_resubscribe
          (BrokerWSClient.connect_success stTwoChannels) = .ok (stR, msgs) ∧
      registryInv stR.subscriptions :=
  C9_registry_invariant stTwoChannels "orders" 9 true
    (by intro p hp; fin_cases hp <;> simp) (by decide)

/-- Claim C10: with an authenticated session, the registry mutation of
subscribe/unsubscribe happens before the wire send: when the send
fails, the returned state already holds the mutation (no rollback),
and the state equals the one produced when the send succeeds. -/
theorem C10_mutate_before_send (st : WSState) (ch : String) (hdl : Nat)
    (hA : st.authenticated = true) :
    (BrokerWSClient.subscribe st ch hdl false).1 =
      { st with subscriptions := subsAppend st.subscriptions ch hdl } ∧
    (∃ e, (BrokerWSClient.subscribe st ch hdl false).2 = .error e) ∧
    (BrokerWSClient.unsubscribe st ch false).1 =
      { st with subscriptions := regDel st.subscriptions ch } ∧
    (∃ e, (BrokerWSClient.unsubscribe st ch false).2 = .error e) ∧
    (BrokerWSClient.subscribe st ch hdl false).1 =
      (BrokerWSClient.subscribe st ch hdl true).1 ∧
    (BrokerWSClient.unsubscribe st ch false).1 =
      (BrokerWSClient.unsubscribe st ch true).1 := by
  refine ⟨subscribe_fst st ch hdl false hA, subscribe_failed_send st ch hdl hA,
    unsubscribe_fst st ch false hA, unsubscribe_failed_send st ch hA, ?_, ?_⟩
  · rw [subscribe_fst st ch hdl false hA, subscribe_fst st ch hdl true hA]
  · rw [unsubscribe_fst st ch false hA, unsubscribe_fst st ch true hA]

/-- Witness for C10 at a concrete authenticated state. -/
theorem C10_mutate_before_send_witness :
    (BrokerWSClient.subscribe stTwoChannels "orders" 9 false).1 =
      { stTwoChannels with
        subscriptions := subsAppend stTwoChannels.subscriptions "orders" 9 } ∧
    (∃ e, (BrokerWSClient.subscribe stTwoChannels "orders" 9 false).2 = .error e) ∧
    (BrokerWSClient.unsubscribe stTwoChannels "orders" false).1 =
      { stTwoChannels with
        subscriptions := regDel stTwoChannels.subscriptions "orders" } ∧
    (∃ e, (BrokerWSClient.unsubscribe stTwoChannels "orders" false).2 = .error e) ∧
    (BrokerWSClient.subscribe stTwoChannels "orders" 9 false).1 =
      (BrokerWSClient.subscribe stTwoChannels "orders" 9 true).1 ∧
    (BrokerWSClient.unsubscribe stTwoChannels "orders" false).1 =
      (BrokerWSClient.unsubscribe stTwoChannels "orders" true).1 :=
  C10_mutate_before_send stTwoChannels "orders" 9 rfl

end Broker
